import Mathlib

/-!
Shallow embedding of the managed-delivery `Environments` React component from
`src/app/scripts/modules/core/delivery/delivery.module.js` (the second part of
the file; the first part is an AngularJS module list with no logic).

The component reads `{ data: { environments, artifacts, resources,
hasManagedResources }, status, loaded }` from a data source, derives
`resourcesById` (lodash `keyBy(resources, 'id')`), `resourcesByEnvironment`
(a `reduce` building an object keyed by environment name), and
`selectedVersion` (`params.version ? pick(params, ['type', 'name', 'version'])
: null`), and renders one of four branches: error, loading, unmanaged empty
state, or the populated layout. The click handler `versionSelected` compares
the clicked version against the selected one with lodash `isEqual` and emits a
router `go` call.

JavaScript objects built by key assignment are embedded as functions
`String → Option _`: assignment of a key overwrites an earlier assignment of
the same key, so in the recursive embeddings the tail (the later elements of
the fold) takes precedence over the head. A JS `undefined` lookup result is
`none`. Route parameters that may be absent are `Option String`, and the
result of `pick` (which keeps only the keys actually present) is a record of
`Option String` fields.
-/

/-- A managed resource record; the component only ever reads its `id` field
(lodash `keyBy(resources, 'id')`). -/
structure ResourceSummary where
  id : String
  deriving DecidableEq, Repr

/-- An environment summary: a name and the ids of the resources in it,
destructured in the source as `{ name, resources: resourceIds }`. -/
structure EnvironmentSummary where
  name : String
  resources : List String
  deriving DecidableEq, Repr

/-- Embedding of `keyBy(resources, 'id')` followed by property lookup:
the object is built by assigning each resource under its id from left to
right, so a later resource with the same id overwrites an earlier one; a key
never assigned reads as `undefined` (`none`). -/
def resourcesById : List ResourceSummary → String → Option ResourceSummary
  | [], _ => none
  | r :: rs, k =>
    match resourcesById rs k with
    | some x => some x
    | none => if k = r.id then some r else none

/-- Embedding of the `environments.reduce` that builds
`byEnvironment[name] = resourceIds.map(id => resourcesById[id])`, followed by
property lookup. As with `resourcesById`, a later environment with the same
name overwrites an earlier one, and an unknown name reads as `none`. The
value stored for an environment is its id list mapped through the
`resourcesById` lookup, with `none` standing for `undefined` entries. -/
def resourcesByEnvironment (rs : List ResourceSummary) :
    List EnvironmentSummary → String → Option (List (Option ResourceSummary))
  | [], _ => none
  | e :: es, k =>
    match resourcesByEnvironment rs es k with
    | some v => some v
    | none => if k = e.name then some (e.resources.map (resourcesById rs)) else none

/-- Router parameters read by the component; each may be absent. -/
structure RouteParams where
  type : Option String
  name : Option String
  version : Option String
  deriving DecidableEq, Repr

/-- The shape produced by `pick(params, ['type', 'name', 'version'])`:
`pick` keeps only the keys present on `params`, so each field may be absent
even though the TypeScript interface declares all three. -/
structure SelectedArtifactVersion where
  type : Option String
  name : Option String
  version : Option String
  deriving DecidableEq, Repr

/-- Embedding of
`params.version ? pick(params, ['type', 'name', 'version']) : null`.
The guard is JS truthiness of `params.version`: an absent or empty version
string yields `null`; otherwise the result is the pick of the three keys,
each kept only when present. -/
def selectedVersion (params : RouteParams) : Option SelectedArtifactVersion :=
  match params.version with
  | some v => if v = "" then none else some ⟨params.type, params.name, some v⟩
  | none => none

/-- The global settings the component reads:
`SETTINGS.managedDelivery?.gettingStartedUrl` may be absent (either the
`managedDelivery` block or the url itself missing reads as `undefined`). -/
structure Settings where
  managedDeliveryGettingStartedUrl : Option String
  deriving DecidableEq, Repr

/-- The literal `defaultGettingStartedUrl` from the source. -/
def defaultGettingStartedUrl : String :=
  "https://www.spinnaker.io/guides/user/managed-delivery/getting-started/"

/-- Embedding of
`SETTINGS.managedDelivery?.gettingStartedUrl || defaultGettingStartedUrl`:
`||` falls through on any falsy left operand, i.e. on `undefined` and on the
empty string. -/
def gettingStartedLink (settings : Settings) : String :=
  match settings.managedDeliveryGettingStartedUrl with
  | some u => if u = "" then defaultGettingStartedUrl else u
  | none => defaultGettingStartedUrl

/-- The data-source flags the four-way render branch reads. `status` is the
raw status string of the data source, compared against the literal
`'ERROR'`. -/
structure EnvironmentsState where
  status : String
  loaded : Bool
  hasManagedResources : Bool
  deriving DecidableEq, Repr

/-- `const loadFailure = status === 'ERROR';` -/
def loadFailure (s : EnvironmentsState) : Bool :=
  s.status == "ERROR"

/-- The four mutually exclusive shapes the component can return: the static
error message, the loading spinner, the unmanaged-application guidance
carrying its getting-started link, and the populated two-column layout. -/
inductive ViewState where
  | error
  | loading
  | unmanaged (gettingStartedLink : String)
  | populated
  deriving DecidableEq, Repr

/-- The early-return structure of the component body:
`if (loadFailure) return error; if (!loaded) return spinner;
if (loaded && !hasManagedResources) return unmanaged; return populated`. -/
def render (settings : Settings) (s : EnvironmentsState) : ViewState :=
  if loadFailure s then .error
  else if !s.loaded then .loading
  else if s.loaded && !s.hasManagedResources then .unmanaged (gettingStartedLink settings)
  else .populated

/-- Embedding of the `versionSelected` click handler:
`if (!isEqual(clickedVersion, selectedVersion)) {
   go(selectedVersion ? '.' : '.artifactVersion', clickedVersion); }`.
The handler is pure apart from the emitted navigation, so it is modelled as
returning the `go` call it makes, if any: the target state name and the
params object passed. lodash `isEqual` against `null` is false for any
object, so the comparison is equality of `some clicked` with the selected
option. -/
def versionSelected (selected : Option SelectedArtifactVersion)
    (clicked : SelectedArtifactVersion) : Option (String × SelectedArtifactVersion) :=
  if some clicked = selected then none
  else
    some ((match selected with
      | some _ => "."
      | none => ".artifactVersion"), clicked)

/-! ## Helper lemmas about the keyed lookups -/

/-- A key matching no resource id reads as `undefined`. -/
theorem resourcesById_eq_none (rs : List ResourceSummary) (k : String)
    (h : ∀ r ∈ rs, r.id ≠ k) : resourcesById rs k = none := by
  induction rs with
  | nil => rfl
  | cons r rs ih =>
    have hrest : resourcesById rs k = none :=
      ih fun x hx => h x (List.mem_cons_of_mem _ hx)
    have hr : r.id ≠ k := h r (List.mem_cons_self _ _)
    simp only [resourcesById, hrest]
    exact if_neg fun hk => hr hk.symm

/-- A successful lookup returns a resource of the list bearing the key. -/
theorem resourcesById_mem (rs : List ResourceSummary) (k : String)
    (r : ResourceSummary) (h : resourcesById rs k = some r) :
    r ∈ rs ∧ r.id = k := by
  induction rs with
  | nil => exact absurd h (by simp [resourcesById])
  | cons a rs ih =>
    simp only [resourcesById] at h
    cases hm : resourcesById rs k with
    | some x =>
      rw [hm] at h
      obtain ⟨hmem, hid⟩ := ih (hm.trans (by injection h with h; rw [h]))
      exact ⟨List.mem_cons_of_mem _ hmem, hid⟩
    | none =>
      rw [hm] at h
      by_cases hk : k = a.id
      · rw [if_pos hk] at h
        injection h with h
        exact ⟨h ▸ List.mem_cons_self _ _, h ▸ hk.symm⟩
      · rw [if_neg hk] at h
        exact absurd h (by simp)

/-- When resource ids are pairwise distinct, looking up the id of a listed
resource returns exactly that resource. -/
theorem resourcesById_of_mem (rs : List ResourceSummary) (r : ResourceSummary)
    (hmem : r ∈ rs) (hnodup : (rs.map ResourceSummary.id).Nodup) :
    resourcesById rs r.id = some r := by
  induction rs with
  | nil => exact absurd hmem (List.not_mem_nil r)
  | cons a rs ih =>
    rw [List.map_cons, List.nodup_cons] at hnodup
    rcases List.mem_cons.mp hmem with h | h
    · subst h
      have hnone : resourcesById rs r.id = none := by
        refine resourcesById_eq_none rs r.id fun x hx hcontra => ?_
        exact hnodup.1 (hcontra ▸ List.mem_map_of_mem ResourceSummary.id hx)
      simp [resourcesById, hnone]
    · have := ih h hnodup.2
      simp only [resourcesById, this]

/-- A name matching no environment reads as `undefined`. -/
theorem resourcesByEnvironment_eq_none (rs : List ResourceSummary)
    (envs : List EnvironmentSummary) (k : String)
    (h : ∀ e ∈ envs, e.name ≠ k) : resourcesByEnvironment rs envs k = none := by
  induction envs with
  | nil => rfl
  | cons e es ih =>
    have hrest : resourcesByEnvironment rs es k = none :=
      ih fun x hx => h x (List.mem_cons_of_mem _ hx)
    have he : e.name ≠ k := h e (List.mem_cons_self _ _)
    simp only [resourcesByEnvironment, hrest]
    exact if_neg fun hk => he hk.symm

/-- When environment names are pairwise distinct, the entry stored under a
listed environment is exactly its id list mapped through the
`resourcesById` lookup. -/
theorem resourcesByEnvironment_of_mem (rs : List ResourceSummary)
    (envs : List EnvironmentSummary) (e : EnvironmentSummary)
    (hmem : e ∈ envs) (hnodup : (envs.map EnvironmentSummary.name).Nodup) :
    resourcesByEnvironment rs envs e.name =
      some (e.resources.map (resourcesById rs)) := by
  induction envs with
  | nil => exact absurd hmem (List.not_mem_nil e)
  | cons a es ih =>
    rw [List.map_cons, List.nodup_cons] at hnodup
    rcases List.mem_cons.mp hmem with h | h
    · subst h
      have hnone : resourcesByEnvironment rs es e.name = none := by
        refine resourcesByEnvironment_eq_none rs es e.name fun x hx hcontra => ?_
        exact hnodup.1 (hcontra ▸ List.mem_map_of_mem EnvironmentSummary.name hx)
      simp [resourcesByEnvironment, hnone]
    · have := ih h hnodup.2
      simp only [resourcesByEnvironment, this]

/-- Pointwise facts about a list transport to `Forall₂` against its map. -/
theorem forall₂_map_self {α β : Type} (P : α → β → Prop) (f : α → β) :
    ∀ l : List α, (∀ a ∈ l, P a (f a)) → List.Forall₂ P l (l.map f)
  | [], _ => List.Forall₂.nil
  | a :: l, h =>
    List.Forall₂.cons (h a (List.mem_cons_self _ _))
      (forall₂_map_self P f l fun x hx => h x (List.mem_cons_of_mem _ hx))

/-! ## Claim theorems -/

/-- C3: for every combination of status, loaded and hasManagedResources, the
component produces exactly one of the four view states: error, loading,
empty/unmanaged, or the populated layout. -/
theorem claim3_exactly_one_view_state (cfg : Settings) (s : EnvironmentsState) :
    (render cfg s = .error ∧ render cfg s ≠ .loading ∧
      (∀ u, render cfg s ≠ .unmanaged u) ∧ render cfg s ≠ .populated) ∨
    (render cfg s ≠ .error ∧ render cfg s = .loading ∧
      (∀ u, render cfg s ≠ .unmanaged u) ∧ render cfg s ≠ .populated) ∨
    (render cfg s ≠ .error ∧ render cfg s ≠ .loading ∧
      (∃ u, render cfg s = .unmanaged u) ∧ render cfg s ≠ .populated) ∨
    (render cfg s ≠ .error ∧ render cfg s ≠ .loading ∧
      (∀ u, render cfg s ≠ .unmanaged u) ∧ render cfg s = .populated) := by
  cases hr : render cfg s <;> simp

/-- C4: whenever the data-source status is the error status, the component
renders the error message and nothing else, regardless of the other flags. -/
theorem claim4_error_renders_error_only (cfg : Settings) (s : EnvironmentsState)
    (h : s.status = "ERROR") : render cfg s = .error := by
  unfold render loadFailure
  rw [h]
  simp

/-- Witness for C4 at a concrete state. -/
theorem claim4_witness :
    render ⟨none⟩ ⟨"ERROR", true, true⟩ = .error :=
  claim4_error_renders_error_only ⟨none⟩ ⟨"ERROR", true, true⟩ rfl

/-- C9: the error state takes precedence over the loading state: with the
error status and loaded false, the component renders the error message, not
the loading indicator. -/
theorem claim9_error_precedes_loading (cfg : Settings) (hmr : Bool) :
    render cfg ⟨"ERROR", false, hmr⟩ = .error ∧
    render cfg ⟨"ERROR", false, hmr⟩ ≠ .loading := by
  constructor <;> simp [render, loadFailure]

/-- C5 counterexample: the claim says that loaded being false always yields
the loading indicator, but in the state with the error status and loaded
false the component renders the error message instead. -/
theorem claim5_counterexample :
    (EnvironmentsState.mk "ERROR" false false).loaded = false ∧
    render ⟨none⟩ ⟨"ERROR", false, false⟩ ≠ .loading ∧
    render ⟨none⟩ ⟨"ERROR", false, false⟩ = .error := by
  decide

/-- C5 amended: whenever loaded is false and the status is not the error
status, the component renders only the loading indicator. -/
theorem claim5_amended_loading (cfg : Settings) (s : EnvironmentsState)
    (h1 : s.loaded = false) (h2 : s.status ≠ "ERROR") :
    render cfg s = .loading := by
  unfold render loadFailure
  have hb : (s.status == "ERROR") = false := by
    simp [h2]
  rw [hb, h1]
  simp

/-- Witness for the amended C5 at a concrete state. -/
theorem claim5_witness :
    render ⟨none⟩ ⟨"PENDING", false, true⟩ = .loading :=
  claim5_amended_loading ⟨none⟩ ⟨"PENDING", false, true⟩ rfl (by decide)

/-- C6 counterexample: the claim quantifies over every state with loaded true
and hasManagedResources false, but with the error status the component
renders the error message, not the unmanaged guidance; moreover a configured
but empty url is not used as the link (the `or` operator treats it as
falsy and substitutes the default). -/
theorem claim6_counterexample :
    render ⟨none⟩ ⟨"ERROR", true, false⟩ = .error ∧
    render ⟨none⟩ ⟨"ERROR", true, false⟩ ≠ .unmanaged (gettingStartedLink ⟨none⟩) ∧
    gettingStartedLink ⟨some ""⟩ ≠ "" := by
  decide

/-- C6 amended: whenever loaded is true, hasManagedResources is false and the
status is not the error status, the component renders the unmanaged guidance
whose link is the configured url when that url is present and non-empty, and
the default getting-started url otherwise. -/
theorem claim6_amended_unmanaged (cfg : Settings) (s : EnvironmentsState)
    (h1 : s.loaded = true) (h2 : s.hasManagedResources = false)
    (h3 : s.status ≠ "ERROR") :
    render cfg s = .unmanaged (gettingStartedLink cfg) ∧
    (∀ u, cfg.managedDeliveryGettingStartedUrl = some u → u ≠ "" →
      gettingStartedLink cfg = u) ∧
    (cfg.managedDeliveryGettingStartedUrl = none →
      gettingStartedLink cfg = defaultGettingStartedUrl) ∧
    (cfg.managedDeliveryGettingStartedUrl = some "" →
      gettingStartedLink cfg = defaultGettingStartedUrl) := by
  have hb : (s.status == "ERROR") = false := by
    simp [h3]
  refine ⟨?_, ?_, ?_, ?_⟩
  · unfold render loadFailure
    rw [hb, h1, h2]
    simp
  · intro u hu hne
    simp [gettingStartedLink, hu, hne]
  · intro hu
    simp [gettingStartedLink, hu]
  · intro hu
    simp [gettingStartedLink, hu]

/-- Witness for the amended C6 at a concrete state and configuration. -/
theorem claim6_witness :
    render ⟨some "https://docs.example.com/start"⟩ ⟨"FETCHED", true, false⟩ =
      .unmanaged (gettingStartedLink ⟨some "https://docs.example.com/start"⟩) ∧
    gettingStartedLink ⟨some "https://docs.example.com/start"⟩ =
      "https://docs.example.com/start" :=
  ⟨(claim6_amended_unmanaged ⟨some "https://docs.example.com/start"⟩
      ⟨"FETCHED", true, false⟩ rfl rfl (by decide)).1,
    (claim6_amended_unmanaged ⟨some "https://docs.example.com/start"⟩
      ⟨"FETCHED", true, false⟩ rfl rfl (by decide)).2.1
      "https://docs.example.com/start" rfl (by decide)⟩

/-- C1 counterexample: the claim says that the absence of any one of type,
name or version makes selectedVersion null, but with type and name absent and
version present the code still produces a non-null partial pick, because the
guard tests only `params.version`. -/
theorem claim1_counterexample :
    (RouteParams.mk none none (some "1.0.0")).type = none ∧
    selectedVersion ⟨none, none, some "1.0.0"⟩ ≠ none ∧
    selectedVersion ⟨none, none, some "1.0.0"⟩ = some ⟨none, none, some "1.0.0"⟩ := by
  decide

/-- C1 amended: selectedVersion is null exactly when the version param is
absent or empty; when a non-empty version is present, selectedVersion is the
pick of the type, name and version params, keeping each of type and name only
when present (hence the full triple when all three are present). -/
theorem claim1_amended_selected_version (p : RouteParams) :
    (selectedVersion p = none ↔ (p.version = none ∨ p.version = some "")) ∧
    (∀ v, p.version = some v → v ≠ "" →
      selectedVersion p = some ⟨p.type, p.name, some v⟩) := by
  constructor
  · cases hv : p.version with
    | none => simp [selectedVersion, hv]
    | some v =>
      by_cases he : v = ""
      · subst he
        simp [selectedVersion, hv]
      · simp [selectedVersion, hv, he]
  · intro v hv hne
    simp [selectedVersion, hv, hne]

/-- Witness for the amended C1 at concrete route params. -/
theorem claim1_witness :
    selectedVersion ⟨some "docker", some "myapp", some "1.0.0"⟩ =
      some ⟨some "docker", some "myapp", some "1.0.0"⟩ :=
  (claim1_amended_selected_version ⟨some "docker", some "myapp", some "1.0.0"⟩).2
    "1.0.0" rfl (by decide)

/-- C2: for well-formed data (pairwise distinct environment names, pairwise
distinct resource ids, and every listed id matched by some resource), the
entry of resourcesByEnvironment for each environment is the list obtained by
replacing each listed resource id, in order, by the resource whose id field
equals that id. -/
theorem claim2_groups_resources (rs : List ResourceSummary)
    (envs : List EnvironmentSummary) (e : EnvironmentSummary)
    (hmem : e ∈ envs)
    (hnames : (envs.map EnvironmentSummary.name).Nodup)
    (hids : (rs.map ResourceSummary.id).Nodup)
    (hall : ∀ i ∈ e.resources, ∃ r ∈ rs, r.id = i) :
    ∃ v, resourcesByEnvironment rs envs e.name = some v ∧
      List.Forall₂ (fun i o => ∃ r, o = some r ∧ r ∈ rs ∧ r.id = i)
        e.resources v := by
  refine ⟨e.resources.map (resourcesById rs),
    resourcesByEnvironment_of_mem rs envs e hmem hnames, ?_⟩
  refine forall₂_map_self _ _ _ fun i hi => ?_
  obtain ⟨r, hr, hrid⟩ := hall i hi
  exact ⟨r, by rw [← hrid]; exact resourcesById_of_mem rs r hr hids, hr, hrid⟩

/-- Witness for C2 at concrete data: two resources, one environment listing
both in reverse order. -/
theorem claim2_witness :
    ∃ v, resourcesByEnvironment [⟨"a"⟩, ⟨"b"⟩] [⟨"prod", ["b", "a"]⟩] "prod" =
      some v ∧
    List.Forall₂
      (fun i o => ∃ r, o = some r ∧ r ∈ [⟨"a"⟩, ⟨"b"⟩] ∧ ResourceSummary.id r = i)
      ["b", "a"] v :=
  claim2_groups_resources [⟨"a"⟩, ⟨"b"⟩] [⟨"prod", ["b", "a"]⟩]
    ⟨"prod", ["b", "a"]⟩ (by decide) (by decide) (by decide) (by decide)

/-- C7: resourcesById and resourcesByEnvironment are pure derived views:
any two evaluations on equal resources and environments inputs yield equal
maps; the embedding is a function of those inputs only, so no operation can
store independent state in them. -/
theorem claim7_pure_derived_views (rs rt : List ResourceSummary)
    (envs envt : List EnvironmentSummary)
    (h1 : rs = rt) (h2 : envs = envt) :
    resourcesById rs = resourcesById rt ∧
    resourcesByEnvironment rs envs = resourcesByEnvironment rt envt := by
  subst h1
  subst h2
  exact ⟨rfl, rfl⟩

/-- Witness for C7 at concrete inputs. -/
theorem claim7_witness :
    resourcesById [⟨"r1"⟩] = resourcesById [⟨"r1"⟩] ∧
    resourcesByEnvironment [⟨"r1"⟩] [⟨"test", ["r1"]⟩] =
      resourcesByEnvironment [⟨"r1"⟩] [⟨"test", ["r1"]⟩] :=
  claim7_pure_derived_views [⟨"r1"⟩] [⟨"r1"⟩] [⟨"test", ["r1"]⟩]
    [⟨"test", ["r1"]⟩] rfl rfl

/-- C8: the click handler emits a navigation call exactly when the clicked
version differs from the selected one; the call passes the clicked version as
params and targets the artifact-version child state when nothing is selected
and the current state otherwise. The handler is modelled as a pure function
of the selection, returning the emitted call: it mutates no local state. -/
theorem claim8_version_click_navigation (selected : Option SelectedArtifactVersion)
    (clicked : SelectedArtifactVersion) :
    ((versionSelected selected clicked).isSome ↔ some clicked ≠ selected) ∧
    (∀ target ps, versionSelected selected clicked = some (target, ps) →
      ps = clicked ∧
      target = (match selected with
        | some _ => "."
        | none => ".artifactVersion")) ∧
    versionSelected none clicked = some (".artifactVersion", clicked) ∧
    (∀ sel, selected = some sel → clicked ≠ sel →
      versionSelected selected clicked = some (".", clicked)) := by
  refine ⟨?_, ?_, ?_, ?_⟩
  · by_cases hc : some clicked = selected <;> simp [versionSelected, hc]
  · intro target ps h
    by_cases hc : some clicked = selected
    · simp [versionSelected, hc] at h
    · simp only [versionSelected, if_neg hc] at h
      injection h with h
      injection h with h1 h2
      exact ⟨h2.symm, h1.symm⟩
  · simp [versionSelected]
  · intro sel hs hne
    subst hs
    have hc : some clicked ≠ some sel := by
      intro h
      exact hne (by injection h)
    simp [versionSelected, hc]

/-- Witness for C8: clicking a version different from the selected one
navigates to the current state with the clicked version. -/
theorem claim8_witness :
    versionSelected (some ⟨some "docker", some "myapp", some "1.0.0"⟩)
      ⟨some "docker", some "myapp", some "2.0.0"⟩ =
      some (".", ⟨some "docker", some "myapp", some "2.0.0"⟩) :=
  (claim8_version_click_navigation
    (some ⟨some "docker", some "myapp", some "1.0.0"⟩)
    ⟨some "docker", some "myapp", some "2.0.0"⟩).2.2.2
    ⟨some "docker", some "myapp", some "1.0.0"⟩ rfl (by decide)

/-- C10: with pairwise distinct environment names, an environment listing an
id with no matching resource still gets an entry whose list has the same
length as the id list, with an undefined (none) element at each unmatched
position, rather than being dropped or failing. -/
theorem claim10_unmatched_id_kept (rs : List ResourceSummary)
    (envs : List EnvironmentSummary) (e : EnvironmentSummary)
    (hmem : e ∈ envs)
    (hnames : (envs.map EnvironmentSummary.name).Nodup) :
    ∃ v, resourcesByEnvironment rs envs e.name = some v ∧
      v.length = e.resources.length ∧
      ∀ (n : Nat) (i : String), e.resources[n]? = some i →
        (∀ r ∈ rs, r.id ≠ i) → v[n]? = some none := by
  refine ⟨e.resources.map (resourcesById rs),
    resourcesByEnvironment_of_mem rs envs e hmem hnames,
    List.length_map _ _, ?_⟩
  intro n i hget hno
  rw [List.getElem?_map, hget]
  simp [resourcesById_eq_none rs i hno]

/-- Witness for C10 at concrete data: an environment listing one matched and
one unmatched resource id. -/
theorem claim10_witness :
    ∃ v, resourcesByEnvironment [⟨"a"⟩] [⟨"prod", ["a", "ghost"]⟩] "prod" =
      some v ∧
    v.length = (["a", "ghost"] : List String).length ∧
    ∀ (n : Nat) (i : String), (["a", "ghost"] : List String)[n]? = some i →
      (∀ r ∈ [(⟨"a"⟩ : ResourceSummary)], ResourceSummary.id r ≠ i) →
      v[n]? = some none :=
  claim10_unmatched_id_kept [⟨"a"⟩] [⟨"prod", ["a", "ghost"]⟩]
    ⟨"prod", ["a", "ghost"]⟩ (by decide) (by decide)
